import Mathlib

/-!
Shallow embedding of the docker-registry-webui core (src/webapp/main.py).

Conventions of the embedding:
* Python strings are modelled as `List Char` (named `Str` below); literals are
  written via `String.data`.
* Python `float` timestamps (from `time.time()`) are modelled as rationals.
* Python exceptions are modelled by an explicit error type `PyErr`:
  `HTTPException(status, detail)` raised by the code, an uncaught pydantic
  `ValidationError`, an uncaught `KeyError`, and an uncaught `AttributeError`.
* The filesystem is modelled explicitly: directory listings and link-file
  contents for a repository subtree (`RepoFS`), the repository-name scan for
  the registry root (`RegFS`), and blob files as a function from paths to a
  read outcome (`BlobFS`).  Blob file bytes are abstracted by their JSON parse
  outcome (`Option Json`): `none` models bytes that fail `json.loads`.
* pydantic model construction (`Model(**data)`) is modelled by explicit
  validation functions from `Json` to the corresponding record, returning
  `Except Str` with the failure message.
-/

set_option maxRecDepth 4096

namespace DockerRegistry

/-- Python strings. -/
abbrev Str := List Char

/-- Values of Python `time.time()`. -/
abbrev Time := ℚ

/-- Filesystem paths, as a list of path segments (`pathlib.Path` with `/`). -/
abbrev Path := List Str

/-- Exceptions that escape a modelled call: `HTTPException(status, detail)`
raised deliberately, plus the uncaught exception kinds the source can raise
(pydantic `ValidationError`, `KeyError`, `AttributeError`). -/
inductive PyErr where
  | http (status : Nat) (detail : Str)
  | validation (msg : Str)
  | keyError (key : Str)
  | attributeError
deriving DecidableEq

/-- Whether an `Except PyErr` outcome is a success. -/
def exceptIsOk {ε α : Type} : Except ε α → Bool
  | .ok _ => true
  | .error _ => false

/-- Whether an `Except PyErr` outcome is a raised `HTTPException`. -/
def exceptIsHttpError {α : Type} : Except PyErr α → Bool
  | .error (.http _ _) => true
  | _ => false

/-- Lookup in a Python dict modelled as an association list (first match). -/
def dictGet {α : Type} (k : Str) : List (Str × α) → Option α
  | [] => none
  | p :: rest => if p.1 = k then some p.2 else dictGet k rest

/-- Python dict assignment `d[k] = v`: replace the entry in place if the key
exists, else append. -/
def dictInsert {α : Type} (k : Str) (v : α) : List (Str × α) → List (Str × α)
  | [] => [(k, v)]
  | p :: rest => if p.1 = k then (k, v) :: rest else p :: dictInsert k v rest

/-- Character class `[a-f0-9]` of the digest regular expressions. -/
def isLowerHexChar (c : Char) : Bool :=
  (decide ('a' ≤ c) && decide (c ≤ 'f')) || (decide ('0' ≤ c) && decide (c ≤ '9'))

/-- Full match of `pre` followed by exactly `len` characters in `[a-f0-9]`
(one alternative of the anchored `RE_VALIDATE` regular expression). -/
def digestMatch (pre : Str) (len : Nat) (s : Str) : Bool :=
  decide (s.take pre.length = pre)
    && decide ((s.drop pre.length).length = len)
    && (s.drop pre.length).all isLowerHexChar

/-- `OciDigest.Validator.validate`: full match against
`^(sha256:[a-f0-9]{64}|sha512:[a-f0-9]{128})$`; the source raises `ValueError`
on a failed match, modelled by the `false` outcome. -/
def OciDigest.Validator.validate (s : Str) : Bool :=
  digestMatch ("sha256:".data) 64 s || digestMatch ("sha512:".data) 128 s

/-- An OCI digest; the pydantic validator guarantees `value` matched the
digest regular expression at construction time. -/
structure OciDigest where
  value : Str
deriving DecidableEq

/-- `OciDigest(value=s)` as a partial constructor: `some` exactly when the
pydantic validator accepts. -/
def OciDigest.mk? (s : Str) : Option OciDigest :=
  if OciDigest.Validator.validate s then some ⟨s⟩ else none

/-- `OciDigest(value=s)` as raising code: a failed validation raises a
pydantic `ValidationError` wrapping `ValueError(f'... is not a valid OCI digest')`. -/
def OciDigest.create (s : Str) : Except PyErr OciDigest :=
  match OciDigest.mk? s with
  | some d => .ok d
  | none => .error (.validation (s ++ (" is not a valid OCI digest").data))

/-- `OciDigest.Algorithm` enumeration. -/
inductive OciDigest.Algorithm where
  | sha256
  | sha512
deriving DecidableEq

/-- The `value` of an `OciDigest.Algorithm` member. -/
def OciDigest.Algorithm.toStr : OciDigest.Algorithm → Str
  | .sha256 => "sha256".data
  | .sha512 => "sha512".data

/-- `OciDigest.Algorithm(s)`: enum lookup by value (`some` iff member). -/
def OciDigest.Algorithm.fromStr (s : Str) : Option OciDigest.Algorithm :=
  if s = "sha256".data then some .sha256
  else if s = "sha512".data then some .sha512
  else none

/-- Python `str.split(':')`. -/
def splitOnColon : Str → List Str
  | [] => [[]]
  | c :: rest =>
    match splitOnColon rest with
    | [] => [[]]
    | h :: t => if c = ':' then [] :: h :: t else (c :: h) :: t

/-- `OciDigest.algorithm()`: `Algorithm(value.split(':')[0])`; the enum lookup
raises for an unknown member, modelled by `Option`. -/
def OciDigest.algorithm (d : OciDigest) : Option OciDigest.Algorithm :=
  OciDigest.Algorithm.fromStr ((splitOnColon d.value).headI)

/-- `OciDigest.encoded()`: `value.split(':')[1]` (index 1 exists for every
value accepted by the validator). -/
def OciDigest.encoded (d : OciDigest) : Str :=
  (splitOnColon d.value).getD 1 []

/-- `OciDigest.from_raw_digest(algorithm, digest)`: builds
`f'\x7balgorithm.value\x7d:\x7bdigest\x7d'` and re-runs construction, hence
re-validation. -/
def OciDigest.from_raw_digest (a : OciDigest.Algorithm) (digest : Str) : Option OciDigest :=
  OciDigest.mk? (a.toStr ++ ':' :: digest)

/-- Spec-side characterization of an accepted digest string (§4.1 of the
spec): exactly `sha256:` + 64 lowercase hex characters or `sha512:` + 128
lowercase hex characters. -/
def DigestSpec (s : Str) : Prop :=
  (∃ h, s = ("sha256:").data ++ h ∧ h.length = 64 ∧ ∀ c ∈ h, isLowerHexChar c = true)
    ∨ (∃ h, s = ("sha512:").data ++ h ∧ h.length = 128 ∧ ∀ c ∈ h, isLowerHexChar c = true)

/-- `schema_revision_validator`: raises unless the value equals the expected
schema version 2. -/
def schema_revision_validator (value : Int) : Except Str Int :=
  if value = 2 then .ok value else .error ("Invalid schemaVersion (must be 2)").data

/-- The `OciMediaType` constants used by the resolver. -/
def OciMediaType.oci_image_index : Str := "application/vnd.oci.image.index.v1+json".data

/-- OCI image manifest media type constant. -/
def OciMediaType.oci_image_manifest : Str := "application/vnd.oci.image.manifest.v1+json".data

/-- OCI image config media type constant. -/
def OciMediaType.oci_image_config : Str := "application/vnd.oci.image.config.v1+json".data

/-- JSON documents, as produced by `json.loads`. -/
inductive Json where
  | null
  | bool (b : Bool)
  | int (n : Int)
  | str (s : Str)
  | arr (elems : List Json)
  | obj (fields : List (Str × Json))

/-- Python `dict.get(k)` on a parsed JSON object (callers guard against
non-dict values, where `.get` would raise `AttributeError`). -/
def Json.get : Json → Str → Option Json
  | .obj fields, k => dictGet k fields
  | _, _ => none

/-- pydantic parse of a required `str` field. -/
def getStrField (flds : List (Str × Json)) (k : Str) : Except Str Str :=
  match dictGet k flds with
  | some (.str s) => .ok s
  | some _ => .error (("str type expected: ").data ++ k)
  | none => .error (("field required: ").data ++ k)

/-- pydantic parse of a required `int` field. -/
def getIntField (flds : List (Str × Json)) (k : Str) : Except Str Int :=
  match dictGet k flds with
  | some (.int n) => .ok n
  | some _ => .error (("int type expected: ").data ++ k)
  | none => .error (("field required: ").data ++ k)

/-- pydantic parse of an optional `str` field with default `None`. -/
def getOptStrField (flds : List (Str × Json)) (k : Str) : Except Str (Option Str) :=
  match dictGet k flds with
  | none => .ok none
  | some .null => .ok none
  | some (.str s) => .ok (some s)
  | some _ => .error (("str type expected: ").data ++ k)

/-- pydantic parse of an optional `int` field with default `None`. -/
def getOptIntField (flds : List (Str × Json)) (k : Str) : Except Str (Option Int) :=
  match dictGet k flds with
  | none => .ok none
  | some .null => .ok none
  | some (.int n) => .ok (some n)
  | some _ => .error (("int type expected: ").data ++ k)

/-- Parse of a JSON array of strings. -/
def jsonStrList : List Json → Except Str (List Str)
  | [] => .ok []
  | .str s :: rest => (jsonStrList rest).map (fun l => s :: l)
  | _ :: _ => .error ("str type expected in list").data

/-- pydantic parse of a required `list[str]` field. -/
def getStrListField (flds : List (Str × Json)) (k : Str) : Except Str (List Str) :=
  match dictGet k flds with
  | some (.arr l) => jsonStrList l
  | some _ => .error (("list type expected: ").data ++ k)
  | none => .error (("field required: ").data ++ k)

/-- pydantic parse of an optional `list[str]` field with default `None`. -/
def getOptStrListField (flds : List (Str × Json)) (k : Str) : Except Str (Option (List Str)) :=
  match dictGet k flds with
  | none => .ok none
  | some .null => .ok none
  | some (.arr l) => (jsonStrList l).map some
  | some _ => .error (("list type expected: ").data ++ k)

/-- pydantic parse of a `list[str]` field with `default_factory=list`
(missing means empty, explicit `null` is a type error). -/
def getStrListDefField (flds : List (Str × Json)) (k : Str) : Except Str (List Str) :=
  match dictGet k flds with
  | none => .ok []
  | some (.arr l) => jsonStrList l
  | some _ => .error (("list type expected: ").data ++ k)

/-- Parse of a JSON object whose values are all strings. -/
def jsonStrDict : List (Str × Json) → Except Str (List (Str × Str))
  | [] => .ok []
  | (k, .str s) :: rest => (jsonStrDict rest).map (fun l => (k, s) :: l)
  | _ :: _ => .error ("str type expected in dict").data

/-- pydantic parse of a `dict[str, str]` field with `default_factory=dict`. -/
def getStrDictDefField (flds : List (Str × Json)) (k : Str) : Except Str (List (Str × Str)) :=
  match dictGet k flds with
  | none => .ok []
  | some (.obj l) => jsonStrDict l
  | some _ => .error (("dict type expected: ").data ++ k)

/-- pydantic parse of an optional `dict[str, str]` field with default `None`. -/
def getOptStrDictField (flds : List (Str × Json)) (k : Str) :
    Except Str (Option (List (Str × Str))) :=
  match dictGet k flds with
  | none => .ok none
  | some .null => .ok none
  | some (.obj l) => (jsonStrDict l).map some
  | some _ => .error (("dict type expected: ").data ++ k)

/-- Parse of a JSON object whose values are all objects. -/
def jsonObjDict : List (Str × Json) → Except Str (List (Str × List (Str × Json)))
  | [] => .ok []
  | (k, .obj o) :: rest => (jsonObjDict rest).map (fun l => (k, o) :: l)
  | _ :: _ => .error ("dict type expected in dict").data

/-- pydantic parse of an optional `dict[str, dict]` field with default `None`. -/
def getOptObjDictField (flds : List (Str × Json)) (k : Str) :
    Except Str (Option (List (Str × List (Str × Json)))) :=
  match dictGet k flds with
  | none => .ok none
  | some .null => .ok none
  | some (.obj l) => (jsonObjDict l).map some
  | some _ => .error (("dict type expected: ").data ++ k)

/-- pydantic parse of an optional plain `dict` field with default `None`. -/
def getOptAnyDictField (flds : List (Str × Json)) (k : Str) :
    Except Str (Option (List (Str × Json))) :=
  match dictGet k flds with
  | none => .ok none
  | some .null => .ok none
  | some (.obj l) => .ok (some l)
  | some _ => .error (("dict type expected: ").data ++ k)

/-- `OciPlatform` (image-index platform record). -/
structure OciPlatform where
  architecture : Str
  os : Str
  os_version : Option Str := none
  os_features : Option (List Str) := none
  variant : Option Str := none
  features : Option (List Str) := none

/-- `OciPlatform(**data)`. -/
def validatePlatform (j : Json) : Except Str OciPlatform :=
  match j with
  | .obj flds =>
    match getStrField flds ("architecture").data with
    | .error e => .error e
    | .ok architecture =>
      match getStrField flds ("os").data with
      | .error e => .error e
      | .ok os =>
        match getOptStrField flds ("os.version").data with
        | .error e => .error e
        | .ok os_version =>
          match getOptStrListField flds ("os.features").data with
          | .error e => .error e
          | .ok os_features =>
            match getOptStrField flds ("variant").data with
            | .error e => .error e
            | .ok variant =>
              match getOptStrListField flds ("features").data with
              | .error e => .error e
              | .ok features =>
                .ok { architecture := architecture, os := os, os_version := os_version,
                      os_features := os_features, variant := variant, features := features }
  | _ => .error ("value is not a valid dict").data

/-- `OciContentDescriptor` (a reference to another blob). -/
structure OciContentDescriptor where
  mediaType : Str
  digest : Str
  size : Int
  platform : Option OciPlatform := none
  urls : List Str := []
  annots : List (Str × Str) := []
  data : Option Str := none
  artifactType : Option Str := none

/-- `OciContentDescriptor(**data)`.  The source field `annotations`
(`dict[str, str]`, `default_factory=dict`, JSON key `annotations`) is held in
the record field `annots`. -/
def validateDescriptor (j : Json) : Except Str OciContentDescriptor :=
  match j with
  | .obj flds =>
    match getStrField flds ("mediaType").data with
    | .error e => .error e
    | .ok mediaType =>
      match getStrField flds ("digest").data with
      | .error e => .error e
      | .ok digest =>
        match getIntField flds ("size").data with
        | .error e => .error e
        | .ok size =>
          match dictGet ("platform").data flds with
          | some .null => .error ("platform must be a dict").data
          | some p =>
            match validatePlatform p with
            | .error e => .error e
            | .ok platform =>
              match getStrListDefField flds ("urls").data with
              | .error e => .error e
              | .ok urls =>
                match getStrDictDefField flds ("annotations").data with
                | .error e => .error e
                | .ok annots =>
                  match getOptStrField flds ("data").data with
                  | .error e => .error e
                  | .ok dataField =>
                    match getOptStrField flds ("artifactType").data with
                    | .error e => .error e
                    | .ok artifactType =>
                      .ok { mediaType := mediaType, digest := digest, size := size,
                            platform := some platform, urls := urls, annots := annots,
                            data := dataField, artifactType := artifactType }
          | none =>
            match getStrListDefField flds ("urls").data with
            | .error e => .error e
            | .ok urls =>
              match getStrDictDefField flds ("annotations").data with
              | .error e => .error e
              | .ok annots =>
                match getOptStrField flds ("data").data with
                | .error e => .error e
                | .ok dataField =>
                  match getOptStrField flds ("artifactType").data with
                  | .error e => .error e
                  | .ok artifactType =>
                    .ok { mediaType := mediaType, digest := digest, size := size,
                          platform := none, urls := urls, annots := annots,
                          data := dataField, artifactType := artifactType }
  | _ => .error ("value is not a valid dict").data

/-- Parse of a JSON array of content descriptors. -/
def jsonDescriptorList : List Json → Except Str (List OciContentDescriptor)
  | [] => .ok []
  | j :: rest =>
    match validateDescriptor j with
    | .error e => .error e
    | .ok d => (jsonDescriptorList rest).map (fun l => d :: l)

/-- `OciImageManifest` (validated OCI image manifest document). -/
structure OciImageManifest where
  schemaVersion : Int
  mediaType : Str
  artifactType : Option Str := none
  config : OciContentDescriptor
  layers : List OciContentDescriptor
  subject : Option OciContentDescriptor := none
  annots : List (Str × Str) := []

/-- `OciImageManifest.size()`: starts from the config size and adds each
layer size in a loop. -/
def OciImageManifest.size (m : OciImageManifest) : Int :=
  m.layers.foldl (fun total layer => total + layer.size) m.config.size

/-- `OciImageManifest(**data)`: fields in source order, with the
`schema_revision_validator` on `schemaVersion` and the media-type equality
validator on `mediaType`. -/
def validateManifest (j : Json) : Except Str OciImageManifest :=
  match j with
  | .obj flds =>
    match getIntField flds ("schemaVersion").data with
    | .error e => .error e
    | .ok sv0 =>
      match schema_revision_validator sv0 with
      | .error e => .error e
      | .ok sv =>
        match getStrField flds ("mediaType").data with
        | .error e => .error e
        | .ok mt =>
          if mt ≠ OciMediaType.oci_image_manifest then
            .error ("Image manifest mediaType mismatch").data
          else
            match getOptStrField flds ("artifactType").data with
            | .error e => .error e
            | .ok artifactType =>
              match dictGet ("config").data flds with
              | none => .error ("field required: config").data
              | some c =>
                match validateDescriptor c with
                | .error e => .error e
                | .ok config =>
                  match dictGet ("layers").data flds with
                  | none => .error ("field required: layers").data
                  | some (.arr ls) =>
                    match jsonDescriptorList ls with
                    | .error e => .error e
                    | .ok layers =>
                      match dictGet ("subject").data flds with
                      | some .null => .error ("subject must be a dict").data
                      | some s =>
                        match validateDescriptor s with
                        | .error e => .error e
                        | .ok subject =>
                          match getStrDictDefField flds ("annotations").data with
                          | .error e => .error e
                          | .ok annots =>
                            .ok { schemaVersion := sv, mediaType := mt,
                                  artifactType := artifactType, config := config,
                                  layers := layers, subject := some subject,
                                  annots := annots }
                      | none =>
                        match getStrDictDefField flds ("annotations").data with
                        | .error e => .error e
                        | .ok annots =>
                          .ok { schemaVersion := sv, mediaType := mt,
                                artifactType := artifactType, config := config,
                                layers := layers, subject := none, annots := annots }
                  | some _ => .error ("layers must be a list").data
  | _ => .error ("value is not a valid dict").data

/-- `OciImageIndex` (validated OCI image index document). -/
structure OciImageIndex where
  schemaVersion : Int
  mediaType : Str
  manifests : List OciContentDescriptor := []
  artifactType : Option Str := none
  subject : Option OciContentDescriptor := none

/-- `OciImageIndex(**data)`: `manifests` has `default_factory=list`. -/
def validateIndex (j : Json) : Except Str OciImageIndex :=
  match j with
  | .obj flds =>
    match getIntField flds ("schemaVersion").data with
    | .error e => .error e
    | .ok sv0 =>
      match schema_revision_validator sv0 with
      | .error e => .error e
      | .ok sv =>
        match getStrField flds ("mediaType").data with
        | .error e => .error e
        | .ok mt =>
          if mt ≠ OciMediaType.oci_image_index then
            .error ("Image index mediaType mismatch").data
          else
            match dictGet ("manifests").data flds with
            | none =>
              match getOptStrField flds ("artifactType").data with
              | .error e => .error e
              | .ok artifactType =>
                match dictGet ("subject").data flds with
                | some .null => .error ("subject must be a dict").data
                | some s =>
                  match validateDescriptor s with
                  | .error e => .error e
                  | .ok subject =>
                    .ok { schemaVersion := sv, mediaType := mt, manifests := [],
                          artifactType := artifactType, subject := some subject }
                | none =>
                  .ok { schemaVersion := sv, mediaType := mt, manifests := [],
                        artifactType := artifactType, subject := none }
            | some (.arr ls) =>
              match jsonDescriptorList ls with
              | .error e => .error e
              | .ok manifests =>
                match getOptStrField flds ("artifactType").data with
                | .error e => .error e
                | .ok artifactType =>
                  match dictGet ("subject").data flds with
                  | some .null => .error ("subject must be a dict").data
                  | some s =>
                    match validateDescriptor s with
                    | .error e => .error e
                    | .ok subject =>
                      .ok { schemaVersion := sv, mediaType := mt, manifests := manifests,
                            artifactType := artifactType, subject := some subject }
                  | none =>
                    .ok { schemaVersion := sv, mediaType := mt, manifests := manifests,
                          artifactType := artifactType, subject := none }
            | some _ => .error ("manifests must be a list").data
  | _ => .error ("value is not a valid dict").data

/-- `OciImageConfig.Config`: runtime-defaults sub-record, all fields optional. -/
structure OciImageConfig.Config where
  User : Option Str := none
  ExposedPorts : Option (List (Str × List (Str × Json))) := none
  Env : Option (List Str) := none
  Entrypoint : Option (List Str) := none
  Cmd : Option (List Str) := none
  Volumes : Option (List (Str × List (Str × Json))) := none
  WorkingDir : Option Str := none
  Labels : Option (List (Str × Str)) := none
  StopSignal : Option Str := none
  Memory : Option Int := none
  MemorySwap : Option Int := none
  CpuShares : Option Int := none
  Healthcheck : Option (List (Str × Json)) := none

/-- `OciImageConfig.Config(**data)`. -/
def validateConfigRuntime (j : Json) : Except Str OciImageConfig.Config :=
  match j with
  | .obj flds =>
    match getOptStrField flds ("User").data with
    | .error e => .error e
    | .ok user =>
      match getOptObjDictField flds ("ExposedPorts").data with
      | .error e => .error e
      | .ok exposedPorts =>
        match getOptStrListField flds ("Env").data with
        | .error e => .error e
        | .ok env =>
          match getOptStrListField flds ("Entrypoint").data with
          | .error e => .error e
          | .ok entrypoint =>
            match getOptStrListField flds ("Cmd").data with
            | .error e => .error e
            | .ok cmd =>
              match getOptObjDictField flds ("Volumes").data with
              | .error e => .error e
              | .ok volumes =>
                match getOptStrField flds ("WorkingDir").data with
                | .error e => .error e
                | .ok workingDir =>
                  match getOptStrDictField flds ("Labels").data with
                  | .error e => .error e
                  | .ok labels =>
                    match getOptStrField flds ("StopSignal").data with
                    | .error e => .error e
                    | .ok stopSignal =>
                      match getOptIntField flds ("Memory").data with
                      | .error e => .error e
                      | .ok memory =>
                        match getOptIntField flds ("MemorySwap").data with
                        | .error e => .error e
                        | .ok memorySwap =>
                          match getOptIntField flds ("CpuShares").data with
                          | .error e => .error e
                          | .ok cpuShares =>
                            match getOptAnyDictField flds ("Healthcheck").data with
                            | .error e => .error e
                            | .ok healthcheck =>
                              .ok { User := user, ExposedPorts := exposedPorts, Env := env,
                                    Entrypoint := entrypoint, Cmd := cmd, Volumes := volumes,
                                    WorkingDir := workingDir, Labels := labels,
                                    StopSignal := stopSignal, Memory := memory,
                                    MemorySwap := memorySwap, CpuShares := cpuShares,
                                    Healthcheck := healthcheck }
  | _ => .error ("value is not a valid dict").data

/-- `OciImageConfig.RootFilesystem`. -/
structure OciImageConfig.RootFilesystem where
  type : Str
  diff_ids : List Str

/-- `OciImageConfig.RootFilesystem(**data)`. -/
def validateRootFilesystem (j : Json) : Except Str OciImageConfig.RootFilesystem :=
  match j with
  | .obj flds =>
    match getStrField flds ("type").data with
    | .error e => .error e
    | .ok ty =>
      match getStrListField flds ("diff_ids").data with
      | .error e => .error e
      | .ok diff_ids => .ok { type := ty, diff_ids := diff_ids }
  | _ => .error ("value is not a valid dict").data

/-- `OciImageConfig` (validated OCI image config document). -/
structure OciImageConfig where
  architecture : Str
  os : Str
  rootfs : OciImageConfig.RootFilesystem
  os_version : Option Str := none
  os_features : Option (List Str) := none
  variant : Option Str := none
  created : Option Str := none
  author : Option Str := none
  config : Option OciImageConfig.Config := none

/-- `OciImageConfig(**data)`: fields in source order (`architecture`, `os`,
`rootfs` required; the rest optional). -/
def validateConfig (j : Json) : Except Str OciImageConfig :=
  match j with
  | .obj flds =>
    match getStrField flds ("architecture").data with
    | .error e => .error e
    | .ok architecture =>
      match getStrField flds ("os").data with
      | .error e => .error e
      | .ok os =>
        match dictGet ("rootfs").data flds with
        | none => .error ("field required: rootfs").data
        | some rj =>
          match validateRootFilesystem rj with
          | .error e => .error e
          | .ok rootfs =>
            match getOptStrField flds ("os.version").data with
            | .error e => .error e
            | .ok os_version =>
              match getOptStrListField flds ("os.features").data with
              | .error e => .error e
              | .ok os_features =>
                match getOptStrField flds ("variant").data with
                | .error e => .error e
                | .ok variant =>
                  match getOptStrField flds ("created").data with
                  | .error e => .error e
                  | .ok created =>
                    match getOptStrField flds ("author").data with
                    | .error e => .error e
                    | .ok author =>
                      match dictGet ("config").data flds with
                      | none =>
                        .ok { architecture := architecture, os := os, rootfs := rootfs,
                              os_version := os_version, os_features := os_features,
                              variant := variant, created := created, author := author,
                              config := none }
                      | some .null =>
                        .ok { architecture := architecture, os := os, rootfs := rootfs,
                              os_version := os_version, os_features := os_features,
                              variant := variant, created := created, author := author,
                              config := none }
                      | some cj =>
                        match validateConfigRuntime cj with
                        | .error e => .error e
                        | .ok cfg =>
                          .ok { architecture := architecture, os := os, rootfs := rootfs,
                                os_version := os_version, os_features := os_features,
                                variant := variant, created := created, author := author,
                                config := some cfg }
  | _ => .error ("value is not a valid dict").data

/-- `Blob`: digest plus raw content.  The content bytes are abstracted by
their JSON parse outcome (`none` models bytes rejected by `json.loads`). -/
structure Blob where
  digest : Str
  content : Option Json
  last_load : Time := 0

/-- `Tag`: a tag name pointing at a revision digest (digest validated at
construction by the call sites below). -/
structure Tag where
  name : Str
  digest : Str
deriving DecidableEq

/-- `Revision`: a revision digest with the list of tags pointing at it. -/
structure Revision where
  digest : Str
  tags : List Tag := []
deriving DecidableEq

/-- `Repository`: per-repository revision/tag cache. -/
structure Repository where
  path : Path
  name : Str
  cached_revisions : List (Str × Revision) := []
  last_load : Time := 0
deriving DecidableEq

/-- The filesystem contents a repository subtree exposes to
`Repository.load`: the names of the subdirectories of
`path/_manifests/revisions/sha256`, the names of the subdirectories of
`path/_manifests/tags`, and for each tag name the content of its
`current/link` file. -/
structure RepoFS where
  revision_dirs : List Str
  tag_dirs : List Str
  tag_link : Str → Str

/-- `Repository.hash_for_tag(tag)`: reads `tags/<tag>/current/link` and
constructs an `OciDigest` from its content (pydantic validation may raise). -/
def Repository.hash_for_tag (fs : RepoFS) (tag : Str) : Except PyErr OciDigest :=
  OciDigest.create (fs.tag_link tag)

/-- Step 1 of `Repository.load`: one `Revision` dict entry per subdirectory
of the revisions root, keyed by the re-validated `sha256:<name>` digest
(`from_raw_digest` raises a `ValidationError` on a malformed name). -/
def loadRevisions : List Str → List (Str × Revision) → Except PyErr (List (Str × Revision))
  | [], acc => .ok acc
  | child :: rest, acc =>
    match OciDigest.from_raw_digest .sha256 child with
    | none =>
      .error (.validation ((("sha256:").data ++ child) ++ (" is not a valid OCI digest").data))
    | some digest =>
      loadRevisions rest (dictInsert digest.value { digest := digest.value, tags := [] } acc)

/-- Step 2 of `Repository.load`: build a `Tag` per subdirectory of the tags
root from its link file. -/
def loadTags (fs : RepoFS) : List Str → Except PyErr (List Tag)
  | [] => .ok []
  | child :: rest =>
    match Repository.hash_for_tag fs child with
    | .error e => .error e
    | .ok digest => (loadTags fs rest).map (fun ts => { name := child, digest := digest.value } :: ts)

/-- `self.cached_revisions[tag.digest].tags.append(tag)`: appends the tag to
the revision entry with its digest, raising `KeyError` when absent. -/
def revisionAppendTag (t : Tag) : List (Str × Revision) → Except PyErr (List (Str × Revision))
  | [] => .error (.keyError t.digest)
  | p :: rest =>
    if p.1 = t.digest then .ok ((p.1, { p.2 with tags := p.2.tags ++ [t] }) :: rest)
    else (revisionAppendTag t rest).map (fun d => p :: d)

/-- Step 3 of `Repository.load`: link every tag to its revision. -/
def linkTags : List Tag → List (Str × Revision) → Except PyErr (List (Str × Revision))
  | [], revs => .ok revs
  | t :: rest, revs =>
    match revisionAppendTag t revs with
    | .error e => .error e
    | .ok revs2 => linkTags rest revs2

/-- `Repository.load()`: wholesale rebuild of the revision cache from the
repository subtree, then record the load timestamp `now`. -/
def Repository.load (fs : RepoFS) (now : Time) (r : Repository) : Except PyErr Repository :=
  match loadRevisions fs.revision_dirs [] with
  | .error e => .error e
  | .ok revs =>
    match loadTags fs fs.tag_dirs with
    | .error e => .error e
    | .ok tags =>
      match linkTags tags revs with
      | .error e => .error e
      | .ok revs2 => .ok { r with cached_revisions := revs2, last_load := now }

/-- `Repository.revisions()`. -/
def Repository.revisions (r : Repository) : List (OciDigest × Revision) :=
  r.cached_revisions.map (fun p => (⟨p.1⟩, p.2))

/-- `Repository.revision(digest)`: dict lookup by the digest string, raising
`HTTPException(404, 'Revision not found')` on `KeyError`. -/
def Repository.revision (r : Repository) (digest : OciDigest) : Except PyErr Revision :=
  match dictGet digest.value r.cached_revisions with
  | some rev => .ok rev
  | none => .error (.http 404 ("Revision not found").data)

/-- Outcome of `open(path, 'rb')` + `read()` on one file. -/
inductive FileReadResult where
  | found (content : Option Json)
  | absent
  | ioError (msg : Str)

/-- The blob area of the store: maps each path to its read outcome
(`absent` models `FileNotFoundError`, `ioError` any other `OSError`). -/
abbrev BlobFS := Path → FileReadResult

/-- The result of `Registry.load`'s scan of the repositories root: the scoped
repository names found (one per subtree with a `_manifests` marker), and the
per-repository subtree contents for later `Repository.load` calls. -/
structure RegFS where
  repo_names : List Str
  repo_fs : Str → RepoFS

/-- `Registry`: top-level cache of repositories. -/
structure Registry where
  root : Path
  cached_repositories : List (Str × Repository) := []
  last_load : Time := 0
deriving DecidableEq

/-- `Registry.base_v2_path()`. -/
def Registry.base_v2_path (r : Registry) : Path :=
  r.root ++ [("docker").data, ("registry").data, ("v2").data]

/-- `Registry.repositories_path()`. -/
def Registry.repositories_path (r : Registry) : Path :=
  r.base_v2_path ++ [("repositories").data]

/-- `Registry.blobs_path()`. -/
def Registry.blobs_path (r : Registry) : Path :=
  r.base_v2_path ++ [("blobs").data]

/-- `Registry.blob_path(digest)`: only sha256 digests have a store path;
any other algorithm raises `HTTPException(500, 'Invalid digest type')`
before any filesystem access. -/
def Registry.blob_path (r : Registry) (d : OciDigest) : Except PyErr Path :=
  if d.algorithm ≠ some OciDigest.Algorithm.sha256 then
    .error (.http 500 ("Invalid digest type").data)
  else
    .ok (r.blobs_path ++ [("sha256").data, d.encoded.take 2, d.encoded, ("data").data])

/-- `Registry.load()`: wholesale rebuild of the repository dict, one fresh
(unloaded) `Repository` per discovered scoped name, then record `now`. -/
def Registry.load (fs : RegFS) (now : Time) (r : Registry) : Registry :=
  { r with
    cached_repositories :=
      fs.repo_names.map (fun n => (n, { path := r.repositories_path ++ [n], name := n })),
    last_load := now }

/-- `Registry.repositories()`: reload first iff `now > last_load + load_ttl`;
the returned flag records whether a filesystem scan was performed. -/
def Registry.repositories (ttl : Time) (fs : RegFS) (now : Time) (r : Registry) :
    Registry × Bool :=
  if r.last_load + ttl < now then (Registry.load fs now r, true) else (r, false)

/-- Replace the repository entry for `name` (Python mutates the shared
`Repository` object held in the dict). -/
def Registry.updateRepository (r : Registry) (name : Str) (repo : Repository) : Registry :=
  { r with
    cached_repositories :=
      r.cached_repositories.map (fun p => if p.1 = name then (p.1, repo) else p) }

/-- `Registry.repository(name)`: resolve through `repositories()` (with the
registry TTL at time `now1`), raise `HTTPException(404)` on `KeyError`, then
independently reload the found repository iff `now2 > last_load + load_ttl`.
Returns the repository, the resulting registry state and whether the
per-repository reload ran. -/
def Registry.repository (rttl pttl : Time) (fs : RegFS) (now1 now2 : Time) (r : Registry)
    (name : Str) : Except PyErr (Repository × Registry × Bool) :=
  let r1 := (Registry.repositories rttl fs now1 r).1
  match dictGet name r1.cached_repositories with
  | none => .error (.http 404 ("Repository not found").data)
  | some repo =>
    if repo.last_load + pttl < now2 then
      match Repository.load (fs.repo_fs name) now2 repo with
      | .ok repo2 => .ok (repo2, Registry.updateRepository r1 name repo2, true)
      | .error e => .error e
    else .ok (repo, r1, false)

/-- `Registry.blob(digest)`: derive the path, read the file; missing file
raises `HTTPException(404, 'Blob not found')`; any other `OSError` is logged
with the offending digest and raises the generic
`HTTPException(500, 'Internal Server Error (Blob)')`.  The second component
collects the `logger.error` lines emitted by the call. -/
def Registry.blob (r : Registry) (bfs : BlobFS) (d : OciDigest) :
    Except PyErr Blob × List Str :=
  match Registry.blob_path r d with
  | .error e => (.error e, [])
  | .ok path =>
    match bfs path with
    | .found content => (.ok { digest := d.value, content := content }, [])
    | .absent => (.error (.http 404 ("Blob not found").data), [])
    | .ioError e =>
      (.error (.http 500 ("Internal Server Error (Blob)").data),
       [("Failed to read blob ").data ++ d.value ++ (": ").data ++ e])

/-- Lines 361-381 of `Registry.manifest`: parse the fetched blob as JSON and
dispatch on the declared `mediaType`.  A parse failure, a schema validation
failure and an unrecognized media type each raise a generic
`HTTPException(500, ...)`; `data.get` on a non-dict document raises
`AttributeError` (uncaught). -/
def manifestFromBlob (content : Option Json) : Except PyErr (OciImageIndex ⊕ OciImageManifest) :=
  match content with
  | none => .error (.http 500 ("Internal Server Error (JSON-blob)").data)
  | some data =>
    match data with
    | .obj flds =>
      match dictGet ("mediaType").data flds with
      | some (.str mt) =>
        if mt = OciMediaType.oci_image_index then
          match validateIndex (Json.obj flds) with
          | .ok idx => .ok (.inl idx)
          | .error _ => .error (.http 500 ("Internal Server Error (OciImageIndex)").data)
        else if mt = OciMediaType.oci_image_manifest then
          match validateManifest (Json.obj flds) with
          | .ok m => .ok (.inr m)
          | .error _ => .error (.http 500 ("Internal Server Error (OciImageManifest)").data)
        else .error (.http 500 ("Internal Server Error (MediaType)").data)
      | _ => .error (.http 500 ("Internal Server Error (MediaType)").data)
    | _ => .error .attributeError

/-- `Registry.manifest(repository, digest)`: resolve the repository (both TTL
clocks), require `digest` to be a cached revision of it, re-validate the
revision digest, fetch the blob, then parse and dispatch. -/
def Registry.manifest (rttl pttl : Time) (fs : RegFS) (bfs : BlobFS) (now1 now2 : Time)
    (r : Registry) (name : Str) (digest : OciDigest) :
    Except PyErr (OciImageIndex ⊕ OciImageManifest) :=
  match Registry.repository rttl pttl fs now1 now2 r name with
  | .error e => .error e
  | .ok (repo, _, _) =>
    match Repository.revision repo digest with
    | .error e => .error e
    | .ok revision =>
      match OciDigest.create revision.digest with
      | .error e => .error e
      | .ok digest2 =>
        match (Registry.blob r bfs digest2).1 with
        | .error e => .error e
        | .ok blob => manifestFromBlob blob.content

/-- `Registry.config(digest)`: fetch the blob, parse JSON (a parse failure is
logged and raises the generic `HTTPException(500, ...)`), then construct
`OciImageConfig(**data)` with NO exception handler: a pydantic
`ValidationError` propagates raw.  The second component collects the
`logger.error` lines. -/
def Registry.config (r : Registry) (bfs : BlobFS) (digest : OciDigest) :
    Except PyErr OciImageConfig × List Str :=
  match Registry.blob r bfs digest with
  | (.error e, log) => (.error e, log)
  | (.ok blob, log) =>
    match blob.content with
    | none =>
      (.error (.http 500 ("Internal Server Error (JSON-blob)").data),
       log ++ [("Failed to parse config ").data ++ digest.value ++ (": JSONDecodeError").data])
    | some data =>
      match validateConfig data with
      | .ok cfg => (.ok cfg, log)
      | .error m => (.error (.validation m), log)

/-! Concrete fixtures used by the witness theorems below. -/

/-- 64 lowercase hex characters. -/
def hexA : Str := List.replicate 64 'a'

/-- Another 64 lowercase hex characters. -/
def hexB : Str := List.replicate 64 'b'

/-- 128 lowercase hex characters. -/
def hexC : Str := List.replicate 128 'c'

/-- A valid sha256 digest string. -/
def digA : Str := ("sha256:").data ++ hexA

/-- A second valid sha256 digest string. -/
def digB : Str := ("sha256:").data ++ hexB

/-- A valid sha512 digest string. -/
def digC : Str := ("sha512:").data ++ hexC

/-- The store path of the blob of `digA` under an empty registry root. -/
def cPathA : Path :=
  [("docker").data, ("registry").data, ("v2").data, ("blobs").data,
   ("sha256").data, ("aa").data, hexA, ("data").data]

/-- A repository subtree: one revision `hexA`, one tag `v1` linking to it. -/
def cRepoFS : RepoFS :=
  { revision_dirs := [hexA], tag_dirs := [("v1").data], tag_link := fun _ => digA }

/-- An unloaded repository. -/
def cRepo : Repository := { path := [], name := ("app").data }

/-- The tag `v1` pointing at `digA`. -/
def cTagV1 : Tag := { name := ("v1").data, digest := digA }

/-- `cRepo` after `load` against `cRepoFS` at time 5. -/
def cLoadedRepo : Repository :=
  { path := [], name := ("app").data,
    cached_revisions := [(digA, { digest := digA, tags := [cTagV1] })], last_load := 5 }

/-- A repository whose cache holds the single (untagged) revision `digA`. -/
def cRepoA : Repository :=
  { path := [], name := ("app").data,
    cached_revisions := [(digA, { digest := digA, tags := [] })], last_load := 10 }

/-- A registry whose cache holds `cRepoA` under the name `app`. -/
def cReg : Registry :=
  { root := [], cached_repositories := [(("app").data, cRepoA)], last_load := 10 }

/-- A registry with an empty, never-loaded cache. -/
def cReg0 : Registry := { root := [] }

/-- The registry-root scan result: one repository named `app` with `cRepoFS`
as its subtree. -/
def cRegFS : RegFS := { repo_names := [("app").data], repo_fs := fun _ => cRepoFS }

/-- The fresh repository entry `Registry.load` builds for `app` over `cReg0`. -/
def cFreshRepoA : Repository :=
  { path := [("docker").data, ("registry").data, ("v2").data, ("repositories").data,
             ("app").data],
    name := ("app").data }

/-- `cFreshRepoA` after its own `load` against `cRepoFS` at time 5. -/
def cFreshRepoALoaded : Repository :=
  { path := [("docker").data, ("registry").data, ("v2").data, ("repositories").data,
             ("app").data],
    name := ("app").data,
    cached_revisions := [(digA, { digest := digA, tags := [cTagV1] })], last_load := 5 }

/-- A blob store where every path reads as an empty JSON object. -/
def cBfsFound : BlobFS := fun _ => .found (some (Json.obj []))

/-- A blob store where every path is missing. -/
def cBfsAbsent : BlobFS := fun _ => .absent

/-- A blob store where every read fails with an `OSError`. -/
def cBfsErr : BlobFS := fun _ => .ioError (("boom").data)

/-- A minimal valid OCI image index document. -/
def cIdxDoc : Json :=
  .obj [(("schemaVersion").data, .int 2),
        (("mediaType").data, .str OciMediaType.oci_image_index)]

/-- The validated record of `cIdxDoc`. -/
def cIdx : OciImageIndex :=
  { schemaVersion := 2, mediaType := OciMediaType.oci_image_index }

/-- A blob store holding `cIdxDoc` at the store path of `digA`. -/
def cBfsIdx : BlobFS := fun p => if p = cPathA then .found (some cIdxDoc) else .absent

/-- A blob store holding an empty JSON object (schema-invalid as a config
document) at the store path of `digA`. -/
def cBfsEmptyObj : BlobFS := fun p => if p = cPathA then .found (some (Json.obj [])) else .absent

/-- A blob store holding bytes that fail JSON parsing at the store path of
`digA`. -/
def cBfsBadJson : BlobFS := fun p => if p = cPathA then .found none else .absent

/-- The fields of `cIdxDoc`. -/
def cIdxFlds : List (Str × Json) :=
  [(("schemaVersion").data, .int 2),
   (("mediaType").data, .str OciMediaType.oci_image_index)]

/-- A content descriptor of a given size (for the `totalSize` example). -/
def cDesc (n : Int) : OciContentDescriptor :=
  { mediaType := OciMediaType.oci_image_config, digest := digA, size := n }

/-- The `totalSize` example manifest: config size 100, layer sizes 50 and 75. -/
def cSizeManifest : OciImageManifest :=
  { schemaVersion := 2, mediaType := OciMediaType.oci_image_manifest,
    config := cDesc 100, layers := [cDesc 50, cDesc 75] }

/-! Theorems. -/

theorem digestMatch_iff (pre : Str) (len : Nat) (s : Str) :
    digestMatch pre len s = true ↔
      ∃ h, s = pre ++ h ∧ h.length = len ∧ ∀ c ∈ h, isLowerHexChar c = true := by
  constructor
  · intro hm
    simp only [digestMatch, Bool.and_eq_true, decide_eq_true_eq, List.all_eq_true] at hm
    obtain ⟨⟨h1, h2⟩, h3⟩ := hm
    refine ⟨s.drop pre.length, ?_, h2, h3⟩
    conv_lhs => rw [← List.take_append_drop pre.length s]
    rw [h1]
  · rintro ⟨h, rfl, hlen, hhex⟩
    simp only [digestMatch, Bool.and_eq_true, decide_eq_true_eq, List.all_eq_true]
    exact ⟨⟨List.take_left pre h, by rw [List.drop_left]; exact hlen⟩,
           by rw [List.drop_left]; exact hhex⟩

theorem mk?_of_valid (s : Str) (h : OciDigest.Validator.validate s = true) :
    OciDigest.mk? s = some ⟨s⟩ := by
  simp [OciDigest.mk?, h]

/-- C2: for every string `s`, constructing an `OciDigest` from `s` succeeds
iff `s` is exactly `sha256:` + 64 lowercase hex characters or `sha512:` + 128
lowercase hex characters; every other string is rejected with a validation
error. -/
theorem validate_iff_digestSpec (s : Str) :
    OciDigest.Validator.validate s = true ↔ DigestSpec s := by
  unfold OciDigest.Validator.validate DigestSpec
  rw [Bool.or_eq_true, digestMatch_iff, digestMatch_iff]

/-- C2: for every string `s`, constructing an `OciDigest` from `s` succeeds
iff `s` is exactly `sha256:` + 64 lowercase hex characters or `sha512:` + 128
lowercase hex characters; every other string is rejected with a validation
error. -/
theorem digest_validation_spec (s : Str) :
    ((OciDigest.mk? s).isSome = true ↔ DigestSpec s)
      ∧ (¬ DigestSpec s →
          OciDigest.create s = .error (.validation (s ++ (" is not a valid OCI digest").data))) := by
  have hiff : (OciDigest.mk? s).isSome = true ↔ DigestSpec s := by
    rw [← validate_iff_digestSpec]
    unfold OciDigest.mk?
    by_cases hv : OciDigest.Validator.validate s = true <;> simp [hv]
  refine ⟨hiff, fun hn => ?_⟩
  have hv : ¬ OciDigest.Validator.validate s = true :=
    fun hc => hn ((validate_iff_digestSpec s).mp hc)
  simp [OciDigest.create, OciDigest.mk?, hv]

/-- C2 witness: acceptance of the concrete well-formed digest string `digA`
(through the characterization) and rejection of the concrete malformed
string `zzz` with the validation error. -/
theorem digest_validation_spec_witness :
    DigestSpec digA
      ∧ OciDigest.create (("zzz").data)
          = .error (.validation ((("zzz").data) ++ (" is not a valid OCI digest").data)) :=
  ⟨(digest_validation_spec digA).1.mp (by decide),
   (digest_validation_spec (("zzz").data)).2
     (fun hspec => absurd ((digest_validation_spec (("zzz").data)).1.mpr hspec) (by decide))⟩

theorem splitOnColon_cons (c : Char) (l : Str) :
    splitOnColon (c :: l)
      = match splitOnColon l with
        | [] => [[]]
        | h :: t => if c = ':' then [] :: h :: t else (c :: h) :: t := rfl

theorem splitOnColon_ne_nil (l : Str) : splitOnColon l ≠ [] := by
  cases l with
  | nil => simp [splitOnColon]
  | cons c rest =>
    rw [splitOnColon_cons]
    cases h : splitOnColon rest with
    | nil => simp
    | cons x t =>
      by_cases hcc : c = ':' <;> simp [hcc]

theorem splitOnColon_no_colon (l : Str) (h : ∀ c ∈ l, c ≠ ':') : splitOnColon l = [l] := by
  induction l with
  | nil => rfl
  | cons c rest ih =>
    have hr : splitOnColon rest = [rest] := ih (fun x hx => h x (List.mem_cons_of_mem _ hx))
    rw [splitOnColon_cons, hr]
    simp [h c (List.mem_cons_self c rest)]

theorem splitOnColon_mid (a b : Str) (h : ∀ c ∈ a, c ≠ ':') :
    splitOnColon (a ++ ':' :: b) = a :: splitOnColon b := by
  induction a with
  | nil =>
    rw [List.nil_append, splitOnColon_cons]
    cases hb : splitOnColon b with
    | nil => exact absurd hb (splitOnColon_ne_nil b)
    | cons x t => simp
  | cons c a2 ih =>
    have hc : c ≠ ':' := h c (List.mem_cons_self c a2)
    have ih2 := ih (fun x hx => h x (List.mem_cons_of_mem _ hx))
    rw [List.cons_append, splitOnColon_cons, ih2]
    simp [hc]

theorem ne_colon_of_hex (c : Char) (h : isLowerHexChar c = true) : c ≠ ':' := by
  rintro rfl
  exact absurd h (by decide)

theorem round_trip_case (d : OciDigest) (a : OciDigest.Algorithm) (hx : Str)
    (heq : d.value = a.toStr ++ ':' :: hx)
    (hxnc : ∀ c ∈ hx, c ≠ ':')
    (hv : OciDigest.Validator.validate d.value = true) :
    d.algorithm = some a ∧ a.toStr ++ ':' :: d.encoded = d.value
      ∧ OciDigest.from_raw_digest a d.encoded = some d := by
  have hnc : ∀ c ∈ a.toStr, c ≠ ':' := by
    cases a <;> decide
  have hsplit : splitOnColon d.value = [a.toStr, hx] := by
    rw [heq, splitOnColon_mid _ _ hnc, splitOnColon_no_colon hx hxnc]
  have henc : d.encoded = hx := by
    unfold OciDigest.encoded
    rw [hsplit]
    rfl
  refine ⟨?_, ?_, ?_⟩
  · unfold OciDigest.algorithm
    rw [hsplit]
    cases a <;> rfl
  · rw [henc, heq]
  · unfold OciDigest.from_raw_digest
    rw [henc, ← heq, mk?_of_valid d.value hv]

/-- C10: for every validated digest `d`, the parsed components recompose the
original string (`algorithm ++ ':' ++ encoded = value`) and rebuilding through
`from_raw_digest` returns `d` itself; conversely `from_raw_digest(a, h)`
succeeds iff the recomposed string `a:h` passes the validator, so a malformed
raw hex is rejected rather than admitted. -/
theorem digest_round_trip_spec (d : OciDigest)
    (h : OciDigest.Validator.validate d.value = true) :
    (∃ a, d.algorithm = some a
        ∧ a.toStr ++ ':' :: d.encoded = d.value
        ∧ OciDigest.from_raw_digest a d.encoded = some d)
      ∧ ∀ (a : OciDigest.Algorithm) (hx : Str),
          (OciDigest.from_raw_digest a hx).isSome = true
            ↔ OciDigest.Validator.validate (a.toStr ++ ':' :: hx) = true := by
  constructor
  · rcases (validate_iff_digestSpec d.value).mp h with ⟨hx, heq, _, hhex⟩ | ⟨hx, heq, _, hhex⟩
    · exact ⟨.sha256, round_trip_case d .sha256 hx (by rw [heq]; rfl)
        (fun c hc => ne_colon_of_hex c (hhex c hc)) h⟩
    · exact ⟨.sha512, round_trip_case d .sha512 hx (by rw [heq]; rfl)
        (fun c hc => ne_colon_of_hex c (hhex c hc)) h⟩
  · intro a hx
    unfold OciDigest.from_raw_digest OciDigest.mk?
    by_cases hv : OciDigest.Validator.validate (a.toStr ++ ':' :: hx) = true <;>
      simp [hv]

/-- C10 witness: instantiation at the concrete valid digest `digA`. -/
theorem digest_round_trip_spec_witness :
    OciDigest.Validator.validate (OciDigest.mk digA).value = true
      ∧ ((∃ a, (OciDigest.mk digA).algorithm = some a
            ∧ a.toStr ++ ':' :: (OciDigest.mk digA).encoded = (OciDigest.mk digA).value
            ∧ OciDigest.from_raw_digest a (OciDigest.mk digA).encoded = some (OciDigest.mk digA))
          ∧ ∀ (a : OciDigest.Algorithm) (hx : Str),
              (OciDigest.from_raw_digest a hx).isSome = true
                ↔ OciDigest.Validator.validate (a.toStr ++ ':' :: hx) = true) :=
  ⟨by decide, digest_round_trip_spec ⟨digA⟩ (by decide)⟩

theorem foldl_size_eq_add_sum (init : Int) (l : List OciContentDescriptor) :
    l.foldl (fun total layer => total + layer.size) init
      = init + (l.map OciContentDescriptor.size).sum := by
  induction l generalizing init with
  | nil => simp
  | cons x xs ih => simp [ih, add_assoc]

/-- C9: the derived total size of a validated image manifest is the config
size plus the sum of the layer sizes (a pure computation over the record); in
particular config size 100 with layer sizes 50 and 75 gives 225. -/
theorem manifest_total_size_spec :
    (∀ m : OciImageManifest,
        m.size = m.config.size + (m.layers.map OciContentDescriptor.size).sum)
      ∧ cSizeManifest.size = 225 :=
  ⟨fun m => foldl_size_eq_add_sum m.config.size m.layers, by decide⟩

/-- C9 witness: the general law instantiated at the example manifest. -/
theorem manifest_total_size_spec_witness :
    cSizeManifest.size
      = cSizeManifest.config.size + (cSizeManifest.layers.map OciContentDescriptor.size).sum :=
  manifest_total_size_spec.1 cSizeManifest

/-- C8: a document whose `schemaVersion` field holds an integer other than 2
fails validation for both validated document types carrying that field (the
OCI image manifest and the OCI image index). -/
theorem schema_version_spec (flds : List (Str × Json)) (n : Int)
    (hget : dictGet (("schemaVersion").data) flds = some (Json.int n)) (hne : n ≠ 2) :
    exceptIsOk (validateManifest (Json.obj flds)) = false
      ∧ exceptIsOk (validateIndex (Json.obj flds)) = false := by
  have hgi : getIntField flds (("schemaVersion").data) = .ok n := by
    simp [getIntField, hget]
  have hsv : schema_revision_validator n
      = .error (("Invalid schemaVersion (must be 2)").data) := by
    simp [schema_revision_validator, hne]
  constructor
  · simp [validateManifest, hgi, hsv, exceptIsOk]
  · simp [validateIndex, hgi, hsv, exceptIsOk]

/-- C8 witness: a document with `schemaVersion = 3` is rejected by both
validators. -/
theorem schema_version_spec_witness :
    dictGet (("schemaVersion").data) [(("schemaVersion").data, Json.int 3)]
        = some (Json.int 3)
      ∧ exceptIsOk (validateManifest (Json.obj [(("schemaVersion").data, Json.int 3)])) = false
      ∧ exceptIsOk (validateIndex (Json.obj [(("schemaVersion").data, Json.int 3)])) = false :=
  ⟨rfl, (schema_version_spec [(("schemaVersion").data, Json.int 3)] 3 rfl (by decide)).1,
        (schema_version_spec [(("schemaVersion").data, Json.int 3)] 3 rfl (by decide)).2⟩

/-- C5: for a sha256 digest the blob store derives
`root/blobs/sha256/<hex[0:2]>/<hex>/data`, returns the file content on
success, fails 404 when the file is missing, and logs the digest while
returning the generic constant 500 detail on any other read error (so the
surfaced message holds no path or OS error text); for a digest of any other
algorithm it fails 500 with `Invalid digest type` identically under every
blob store, i.e. before touching the filesystem. -/
theorem blob_store_spec (r : Registry) (d : OciDigest)
    (_hval : OciDigest.Validator.validate d.value = true) :
    (d.algorithm = some OciDigest.Algorithm.sha256 →
       Registry.blob_path r d
           = .ok (r.blobs_path ++ [("sha256").data, d.encoded.take 2, d.encoded, ("data").data])
         ∧ (∀ bfs c,
              bfs (r.blobs_path
                    ++ [("sha256").data, d.encoded.take 2, d.encoded, ("data").data])
                  = .found c →
              Registry.blob r bfs d = (.ok { digest := d.value, content := c }, []))
         ∧ (∀ bfs,
              bfs (r.blobs_path
                    ++ [("sha256").data, d.encoded.take 2, d.encoded, ("data").data])
                  = .absent →
              Registry.blob r bfs d = (.error (.http 404 ("Blob not found").data), []))
         ∧ (∀ bfs e,
              bfs (r.blobs_path
                    ++ [("sha256").data, d.encoded.take 2, d.encoded, ("data").data])
                  = .ioError e →
              Registry.blob r bfs d
                = (.error (.http 500 ("Internal Server Error (Blob)").data),
                   [("Failed to read blob ").data ++ d.value ++ (": ").data ++ e])))
      ∧ (d.algorithm ≠ some OciDigest.Algorithm.sha256 →
           ∀ bfs bfs2,
             Registry.blob r bfs d = Registry.blob r bfs2 d
               ∧ Registry.blob r bfs d
                   = (.error (.http 500 ("Invalid digest type").data), [])) := by
  constructor
  · intro halg
    have hbp : Registry.blob_path r d
        = .ok (r.blobs_path ++ [("sha256").data, d.encoded.take 2, d.encoded, ("data").data]) := by
      unfold Registry.blob_path
      rw [if_neg (fun hne => hne halg)]
    refine ⟨hbp, ?_, ?_, ?_⟩
    · intro bfs c hb
      simp [Registry.blob, hbp, hb]
    · intro bfs hb
      simp [Registry.blob, hbp, hb]
    · intro bfs e hb
      simp [Registry.blob, hbp, hb]
  · intro halg bfs bfs2
    have hbp : Registry.blob_path r d = .error (.http 500 ("Invalid digest type").data) := by
      unfold Registry.blob_path
      rw [if_pos halg]
    exact ⟨by simp [Registry.blob, hbp], by simp [Registry.blob, hbp]⟩

/-- C5 witness: concrete path derivation and all four outcomes at concrete
blob stores for a sha256 digest, and the store-independent 500 for a sha512
digest. -/
theorem blob_store_spec_witness :
    OciDigest.Validator.validate digA = true
      ∧ Registry.blob_path cReg0 (OciDigest.mk digA)
          = .ok (cReg0.blobs_path
              ++ [("sha256").data, (OciDigest.mk digA).encoded.take 2,
                  (OciDigest.mk digA).encoded, ("data").data])
      ∧ Registry.blob cReg0 cBfsFound (OciDigest.mk digA)
          = (.ok { digest := digA, content := some (Json.obj []) }, [])
      ∧ Registry.blob cReg0 cBfsAbsent (OciDigest.mk digA)
          = (.error (.http 404 ("Blob not found").data), [])
      ∧ Registry.blob cReg0 cBfsErr (OciDigest.mk digA)
          = (.error (.http 500 ("Internal Server Error (Blob)").data),
             [("Failed to read blob ").data ++ digA ++ (": ").data ++ ("boom").data])
      ∧ Registry.blob cReg0 cBfsFound (OciDigest.mk digC)
          = Registry.blob cReg0 cBfsAbsent (OciDigest.mk digC)
      ∧ Registry.blob cReg0 cBfsFound (OciDigest.mk digC)
          = (.error (.http 500 ("Invalid digest type").data), []) := by
  have h256 := blob_store_spec cReg0 (OciDigest.mk digA) (by decide)
  have h512 := blob_store_spec cReg0 (OciDigest.mk digC) (by decide)
  have halg256 : (OciDigest.mk digA).algorithm = some OciDigest.Algorithm.sha256 := by decide
  have halg512 : (OciDigest.mk digC).algorithm ≠ some OciDigest.Algorithm.sha256 := by decide
  have hA := h256.1 halg256
  refine ⟨by decide, hA.1, hA.2.1 cBfsFound (some (Json.obj [])) rfl,
          hA.2.2.1 cBfsAbsent rfl, hA.2.2.2 cBfsErr (("boom").data) rfl,
          (h512.2 halg512 cBfsFound cBfsAbsent).1, (h512.2 halg512 cBfsFound cBfsAbsent).2⟩

/-- C6: `repositories()` rescans iff the current time exceeds
`last_load + ttl` (so after a first stale call at `t1`, a second call within
the window does not scan and a later call past the window scans once more);
`repository(name)` resolves through `repositories()`, fails 404 for a missing
name, and otherwise reloads the found repository iff, independently of the
registry clock, the per-repository check time exceeds that repository's own
`last_load + ttl`. -/
theorem cache_ttl_reload_spec
    (rttl pttl : Time) (fs : RegFS) (r : Registry) (nameA nameB : Str)
    (t1 t2 t3 t4 t5 : Time) (repo repo2 : Repository)
    (h1 : r.last_load + rttl < t1)
    (h2 : ¬ (t1 + rttl < t2))
    (h3 : t1 + rttl < t3)
    (h4 : dictGet nameA (Registry.load fs t1 r).cached_repositories = none)
    (h5 : dictGet nameB (Registry.load fs t1 r).cached_repositories = some repo)
    (h6 : ¬ (repo.last_load + pttl < t4))
    (h7 : repo.last_load + pttl < t5)
    (h8 : Repository.load (fs.repo_fs nameB) t5 repo = .ok repo2) :
    Registry.repositories rttl fs t1 r = (Registry.load fs t1 r, true)
      ∧ Registry.repositories rttl fs t2 (Registry.load fs t1 r)
          = (Registry.load fs t1 r, false)
      ∧ (Registry.repositories rttl fs t3 (Registry.load fs t1 r)).2 = true
      ∧ (∀ (t : Time) (r0 : Registry),
           (Registry.repositories rttl fs t r0).2 = decide (r0.last_load + rttl < t))
      ∧ Registry.repository rttl pttl fs t1 t4 r nameA
          = .error (.http 404 ("Repository not found").data)
      ∧ Registry.repository rttl pttl fs t1 t4 r nameB
          = .ok (repo, Registry.load fs t1 r, false)
      ∧ Registry.repository rttl pttl fs t1 t5 r nameB
          = .ok (repo2, Registry.updateRepository (Registry.load fs t1 r) nameB repo2, true) := by
  have c1 : Registry.repositories rttl fs t1 r = (Registry.load fs t1 r, true) := by
    unfold Registry.repositories
    rw [if_pos h1]
  have c1a : (Registry.repositories rttl fs t1 r).1 = Registry.load fs t1 r := by
    rw [c1]
  refine ⟨c1, ?_, ?_, ?_, ?_, ?_, ?_⟩
  · unfold Registry.repositories
    rw [show (Registry.load fs t1 r).last_load = t1 from rfl, if_neg h2]
  · unfold Registry.repositories
    rw [show (Registry.load fs t1 r).last_load = t1 from rfl, if_pos h3]
  · intro t r0
    unfold Registry.repositories
    by_cases hc : r0.last_load + rttl < t <;> simp [hc]
  · simp only [Registry.repository, c1a, h4]
  · simp only [Registry.repository, c1a, h5]
    rw [if_neg h6]
  · simp only [Registry.repository, c1a, h5]
    rw [if_pos h7, h8]

/-- C6 witness: concrete two-TTL scenario over the one-repository scan
`cRegFS` — scan at time 4, no rescan at 6, rescan at 8; 404 for a missing
name; no per-repository reload at 2; reload at 5. -/
theorem cache_ttl_reload_spec_witness :
    Registry.repositories 3 cRegFS 4 cReg0 = (Registry.load cRegFS 4 cReg0, true)
      ∧ Registry.repositories 3 cRegFS 6 (Registry.load cRegFS 4 cReg0)
          = (Registry.load cRegFS 4 cReg0, false)
      ∧ (Registry.repositories 3 cRegFS 8 (Registry.load cRegFS 4 cReg0)).2 = true
      ∧ Registry.repository 3 3 cRegFS 4 2 cReg0 (("missing").data)
          = .error (.http 404 ("Repository not found").data)
      ∧ Registry.repository 3 3 cRegFS 4 2 cReg0 (("app").data)
          = .ok (cFreshRepoA, Registry.load cRegFS 4 cReg0, false)
      ∧ Registry.repository 3 3 cRegFS 4 5 cReg0 (("app").data)
          = .ok (cFreshRepoALoaded,
                 Registry.updateRepository (Registry.load cRegFS 4 cReg0) (("app").data)
                   cFreshRepoALoaded,
                 true) := by
  have h := cache_ttl_reload_spec 3 3 cRegFS cReg0 (("missing").data) (("app").data)
    4 6 8 2 5 cFreshRepoA cFreshRepoALoaded
    (by norm_num [cReg0]) (by norm_num) (by norm_num)
    (by decide) (by decide)
    (by norm_num [cFreshRepoA]) (by norm_num [cFreshRepoA]) rfl
  exact ⟨h.1, h.2.1, h.2.2.1, h.2.2.2.2.1, h.2.2.2.2.2.1, h.2.2.2.2.2.2⟩

theorem repository_fresh_eq (rttl pttl : Time) (fs : RegFS) (now1 now2 : Time) (r : Registry)
    (name : Str) (repo : Repository)
    (h1 : ¬ (r.last_load + rttl < now1))
    (h2 : dictGet name r.cached_repositories = some repo)
    (h3 : ¬ (repo.last_load + pttl < now2)) :
    Registry.repository rttl pttl fs now1 now2 r name = .ok (repo, r, false) := by
  simp only [Registry.repository, Registry.repositories]
  rw [if_neg h1]
  simp [h2, h3]

/-- C1: when `manifest(name, d)` has resolved the repository and `d` is not a
key of that repository's current revision cache, the call fails with
`HTTPException(404, 'Revision not found')`, and its outcome is identical
under every blob store — no blob is read, even if a blob for `d` exists; so
only digests cached as revisions of the named repository resolve further. -/
theorem manifest_access_boundary
    (rttl pttl : Time) (fs : RegFS) (now1 now2 : Time) (r : Registry) (name : Str)
    (d : OciDigest) (repo : Repository) (r1 : Registry) (flag : Bool)
    (_hval : OciDigest.Validator.validate d.value = true)
    (hrepo : Registry.repository rttl pttl fs now1 now2 r name = .ok (repo, r1, flag))
    (hmiss : dictGet d.value repo.cached_revisions = none) :
    (∀ bfs, Registry.manifest rttl pttl fs bfs now1 now2 r name d
        = .error (.http 404 ("Revision not found").data))
      ∧ ∀ bfs bfs2, Registry.manifest rttl pttl fs bfs now1 now2 r name d
          = Registry.manifest rttl pttl fs bfs2 now1 now2 r name d := by
  have hm : ∀ bfs, Registry.manifest rttl pttl fs bfs now1 now2 r name d
      = .error (.http 404 ("Revision not found").data) := by
    intro bfs
    simp [Registry.manifest, hrepo, Repository.revision, hmiss]
  exact ⟨hm, fun bfs bfs2 => (hm bfs).trans (hm bfs2).symm⟩

/-- C1 witness: over a registry caching the single revision `digA` under the
repository `app`, asking for `digB` fails 404 identically under a blob store
that holds a blob for every path (so in particular for `digB`) and under an
empty one. -/
theorem manifest_access_boundary_witness :
    Registry.repository 3 3 cRegFS 11 11 cReg (("app").data) = .ok (cRepoA, cReg, false)
      ∧ dictGet digB cRepoA.cached_revisions = none
      ∧ Registry.manifest 3 3 cRegFS cBfsFound 11 11 cReg (("app").data) (OciDigest.mk digB)
          = .error (.http 404 ("Revision not found").data)
      ∧ Registry.manifest 3 3 cRegFS cBfsFound 11 11 cReg (("app").data) (OciDigest.mk digB)
          = Registry.manifest 3 3 cRegFS cBfsAbsent 11 11 cReg (("app").data)
              (OciDigest.mk digB) := by
  have hrepo : Registry.repository 3 3 cRegFS 11 11 cReg (("app").data)
      = .ok (cRepoA, cReg, false) :=
    repository_fresh_eq 3 3 cRegFS 11 11 cReg (("app").data) cRepoA
      (by norm_num [cReg]) (by decide) (by norm_num [cRepoA])
  have h := manifest_access_boundary 3 3 cRegFS 11 11 cReg (("app").data)
    (OciDigest.mk digB) cRepoA cReg false (by decide) hrepo (by decide)
  exact ⟨hrepo, by decide, h.1 cBfsFound, h.2 cBfsFound cBfsAbsent⟩

/-- C3: once the repository is resolved, the digest matches a cached revision
and the blob is fetched, `manifest` equals the parse-and-dispatch step on the
stored blob: a JSON parse failure yields the generic 500 `JSON-blob` error;
for a JSON object document, the OCI image-index media type yields the `Index`
variant on successful validation and the generic 500 `OciImageIndex` error on
validation failure, the image-manifest media type likewise yields the `Image`
variant or the generic 500 `OciImageManifest` error, and any other or missing
`mediaType` yields the generic 500 `MediaType` error — every failure is a 500,
never a client-input error. -/
theorem manifest_media_type_dispatch
    (rttl pttl : Time) (fs : RegFS) (bfs : BlobFS) (now1 now2 : Time) (r : Registry)
    (name : Str) (d : OciDigest) (repo : Repository) (r1 : Registry) (flag : Bool)
    (rev : Revision) (blob : Blob)
    (hrepo : Registry.repository rttl pttl fs now1 now2 r name = .ok (repo, r1, flag))
    (hrev : dictGet d.value repo.cached_revisions = some rev)
    (hvd : OciDigest.Validator.validate rev.digest = true)
    (hblob : (Registry.blob r bfs ⟨rev.digest⟩).1 = .ok blob) :
    Registry.manifest rttl pttl fs bfs now1 now2 r name d = manifestFromBlob blob.content
      ∧ (blob.content = none →
          Registry.manifest rttl pttl fs bfs now1 now2 r name d
            = .error (.http 500 ("Internal Server Error (JSON-blob)").data))
      ∧ ∀ flds, blob.content = some (Json.obj flds) →
          ((∀ mt, dictGet (("mediaType").data) flds = some (.str mt) →
             (mt = OciMediaType.oci_image_index →
                (∀ idx, validateIndex (Json.obj flds) = .ok idx →
                   Registry.manifest rttl pttl fs bfs now1 now2 r name d = .ok (.inl idx))
                  ∧ ∀ e, validateIndex (Json.obj flds) = .error e →
                      Registry.manifest rttl pttl fs bfs now1 now2 r name d
                        = .error (.http 500 ("Internal Server Error (OciImageIndex)").data))
               ∧ (mt ≠ OciMediaType.oci_image_index →
                    mt = OciMediaType.oci_image_manifest →
                    (∀ m, validateManifest (Json.obj flds) = .ok m →
                       Registry.manifest rttl pttl fs bfs now1 now2 r name d = .ok (.inr m))
                      ∧ ∀ e, validateManifest (Json.obj flds) = .error e →
                          Registry.manifest rttl pttl fs bfs now1 now2 r name d
                            = .error
                                (.http 500 ("Internal Server Error (OciImageManifest)").data))
               ∧ (mt ≠ OciMediaType.oci_image_index →
                    mt ≠ OciMediaType.oci_image_manifest →
                    Registry.manifest rttl pttl fs bfs now1 now2 r name d
                      = .error (.http 500 ("Internal Server Error (MediaType)").data)))
            ∧ (dictGet (("mediaType").data) flds = none →
                 Registry.manifest rttl pttl fs bfs now1 now2 r name d
                   = .error (.http 500 ("Internal Server Error (MediaType)").data))) := by
  have hcreate : OciDigest.create rev.digest = .ok ⟨rev.digest⟩ := by
    unfold OciDigest.create
    rw [mk?_of_valid _ hvd]
  have hpipe : Registry.manifest rttl pttl fs bfs now1 now2 r name d
      = manifestFromBlob blob.content := by
    simp [Registry.manifest, hrepo, Repository.revision, hrev, hcreate, hblob]
  refine ⟨hpipe, ?_, ?_⟩
  · intro hnone
    rw [hpipe, hnone]
    rfl
  · intro flds hobj
    refine ⟨?_, ?_⟩
    · intro mt hmt
      refine ⟨?_, ?_, ?_⟩
      · intro hidx
        constructor
        · intro idx hv
          rw [hpipe, hobj]
          simp only [manifestFromBlob, hmt]
          rw [if_pos hidx, hv]
        · intro e hv
          rw [hpipe, hobj]
          simp only [manifestFromBlob, hmt]
          rw [if_pos hidx, hv]
      · intro hne hman
        constructor
        · intro m hv
          rw [hpipe, hobj]
          simp only [manifestFromBlob, hmt]
          rw [if_neg hne, if_pos hman, hv]
        · intro e hv
          rw [hpipe, hobj]
          simp only [manifestFromBlob, hmt]
          rw [if_neg hne, if_pos hman, hv]
      · intro hne1 hne2
        rw [hpipe, hobj]
        simp only [manifestFromBlob, hmt]
        rw [if_neg hne1, if_neg hne2]
    · intro hmtnone
      rw [hpipe, hobj]
      simp only [manifestFromBlob, hmtnone]

/-- C3 witness: with the index document `cIdxDoc` stored as revision `digA`
of the repository `app`, `manifest` resolves to the `Index` variant of its
validated record. -/
theorem manifest_media_type_dispatch_witness :
    Registry.repository 3 3 cRegFS 11 11 cReg (("app").data) = .ok (cRepoA, cReg, false)
      ∧ dictGet digA cRepoA.cached_revisions = some { digest := digA, tags := [] }
      ∧ validateIndex (Json.obj cIdxFlds) = .ok cIdx
      ∧ Registry.manifest 3 3 cRegFS cBfsIdx 11 11 cReg (("app").data) (OciDigest.mk digA)
          = .ok (.inl cIdx) := by
  have hrepo : Registry.repository 3 3 cRegFS 11 11 cReg (("app").data)
      = .ok (cRepoA, cReg, false) :=
    repository_fresh_eq 3 3 cRegFS 11 11 cReg (("app").data) cRepoA
      (by norm_num [cReg]) (by decide) (by norm_num [cRepoA])
  have h := manifest_media_type_dispatch 3 3 cRegFS cBfsIdx 11 11 cReg (("app").data)
    (OciDigest.mk digA) cRepoA cReg false { digest := digA, tags := [] }
    { digest := digA, content := some cIdxDoc } hrepo (by decide) (by decide) rfl
  have hcase := (h.2.2 cIdxFlds rfl).1 OciMediaType.oci_image_index rfl
  exact ⟨hrepo, by decide, rfl, (hcase.1 rfl).1 cIdx rfl⟩

/-- C4 counterexample: with a stored config blob that parses to the JSON
object `\x7b\x7d` (which fails `OciImageConfig` validation), `config` does not
surface an `HTTPException(500, ...)`: the raw pydantic `ValidationError`
propagates out of `config` uncaught, refuting that every schema validation
failure is handled like manifest resolution's. -/
theorem config_validation_error_counterexample :
    (Registry.config cReg0 cBfsEmptyObj (OciDigest.mk digA)).1
        = .error (.validation (("field required: architecture").data))
      ∧ exceptIsHttpError (Registry.config cReg0 cBfsEmptyObj (OciDigest.mk digA)).1 = false :=
  ⟨rfl, rfl⟩

/-- C4 amended: `config(d)` fetches the blob and parses it as JSON; a JSON
parse failure is logged (with the digest) and surfaced as the generic
`HTTPException(500, 'Internal Server Error (JSON-blob)')` exactly as in
manifest resolution, but a schema validation failure of the config document
is not caught inside `config`: the raw pydantic `ValidationError` propagates
to the caller instead of being converted to the generic internal error. -/
theorem config_error_handling_amended
    (r : Registry) (bfs : BlobFS) (d : OciDigest) (blob : Blob) (log : List Str)
    (hblob : Registry.blob r bfs d = (.ok blob, log)) :
    (blob.content = none →
       Registry.config r bfs d
         = (.error (.http 500 ("Internal Server Error (JSON-blob)").data),
            log ++ [("Failed to parse config ").data ++ d.value ++ (": JSONDecodeError").data]))
      ∧ ∀ data m, blob.content = some data → validateConfig data = .error m →
          Registry.config r bfs d = (.error (.validation m), log) := by
  constructor
  · intro hnone
    simp [Registry.config, hblob, hnone]
  · intro data m hsome hv
    simp [Registry.config, hblob, hsome, hv]

/-- C4 amended witness: a stored blob failing JSON parse yields the logged
generic 500, while a stored parseable-but-invalid config document yields the
propagated raw validation error. -/
theorem config_error_handling_amended_witness :
    Registry.config cReg0 cBfsBadJson (OciDigest.mk digA)
        = (.error (.http 500 ("Internal Server Error (JSON-blob)").data),
           [("Failed to parse config ").data ++ digA ++ (": JSONDecodeError").data])
      ∧ Registry.config cReg0 cBfsEmptyObj (OciDigest.mk digA)
          = (.error (.validation (("field required: architecture").data)), []) := by
  have h1 := config_error_handling_amended cReg0 cBfsBadJson (OciDigest.mk digA)
    { digest := digA, content := none } [] rfl
  have h2 := config_error_handling_amended cReg0 cBfsEmptyObj (OciDigest.mk digA)
    { digest := digA, content := some (Json.obj []) } [] rfl
  exact ⟨h1.1 rfl, h2.2 (Json.obj []) (("field required: architecture").data) rfl rfl⟩

theorem dictGet_append_none {α : Type} (k : Str) (a b : List (Str × α))
    (h : dictGet k a = none) : dictGet k (a ++ b) = dictGet k b := by
  induction a with
  | nil => rfl
  | cons p rest ih =>
    rw [List.cons_append]
    simp only [dictGet] at h ⊢
    by_cases hp : p.1 = k
    · rw [if_pos hp] at h
      exact absurd h (by simp)
    · rw [if_neg hp] at h
      rw [if_neg hp]
      exact ih h

theorem dictInsert_of_none {α : Type} (k : Str) (v : α) (d : List (Str × α))
    (h : dictGet k d = none) : dictInsert k v d = d ++ [(k, v)] := by
  induction d with
  | nil => rfl
  | cons p rest ih =>
    simp only [dictGet] at h
    simp only [dictInsert]
    by_cases hp : p.1 = k
    · rw [if_pos hp] at h
      exact absurd h (by simp)
    · rw [if_neg hp] at h
      rw [if_neg hp, ih h, List.cons_append]

theorem create_ok_value (s : Str) (d : OciDigest) (h : OciDigest.create s = .ok d) :
    d.value = s := by
  unfold OciDigest.create OciDigest.mk? at h
  by_cases hv : OciDigest.Validator.validate s = true
  · rw [if_pos hv] at h
    cases h
    rfl
  · rw [if_neg hv] at h
    cases h

theorem from_raw_sha256_ok (child : Str) (d : OciDigest)
    (h : OciDigest.from_raw_digest .sha256 child = some d) :
    d.value = ("sha256:").data ++ child := by
  unfold OciDigest.from_raw_digest OciDigest.mk? at h
  by_cases hv : OciDigest.Validator.validate (OciDigest.Algorithm.toStr .sha256 ++ ':' :: child)
      = true
  · rw [if_pos hv] at h
    cases h
    rfl
  · rw [if_neg hv] at h
    cases h

theorem loadRevisions_ok (ds : List Str) (acc out : List (Str × Revision))
    (hok : loadRevisions ds acc = .ok out)
    (hfresh : ∀ n ∈ ds, dictGet (("sha256:").data ++ n) acc = none)
    (hnodup : ds.Nodup) :
    out = acc ++ ds.map (fun n =>
      ((("sha256:").data ++ n,
        ({ digest := ("sha256:").data ++ n, tags := [] } : Revision)))) := by
  induction ds generalizing acc with
  | nil =>
    cases hok
    simp
  | cons n rest ih =>
    cases hfr : OciDigest.from_raw_digest .sha256 n with
    | none =>
      simp only [loadRevisions, hfr] at hok
      cases hok
    | some dg =>
      simp only [loadRevisions, hfr] at hok
      have hval := from_raw_sha256_ok n dg hfr
      rw [hval] at hok
      have hfn : dictGet (("sha256:").data ++ n) acc = none :=
        hfresh n (List.mem_cons_self n rest)
      rw [dictInsert_of_none _ _ _ hfn] at hok
      have hfresh2 : ∀ m ∈ rest,
          dictGet (("sha256:").data ++ m)
            (acc ++ [((("sha256:").data ++ n),
              ({ digest := ("sha256:").data ++ n, tags := [] } : Revision))]) = none := by
        intro m hm
        rw [dictGet_append_none _ _ _ (hfresh m (List.mem_cons_of_mem _ hm))]
        have hneq : ¬ (n = m) := by
          intro hmn
          rw [List.nodup_cons] at hnodup
          exact hnodup.1 (by rw [hmn]; exact hm)
        simp [dictGet, hneq]
      have hout := ih _ hok hfresh2 (List.nodup_cons.mp hnodup).2
      rw [hout]
      simp

theorem loadTags_ok (fs : RepoFS) (ds : List Str) (ts : List Tag)
    (hok : loadTags fs ds = .ok ts) :
    ts = ds.map (fun t => ({ name := t, digest := fs.tag_link t } : Tag)) := by
  induction ds generalizing ts with
  | nil =>
    cases hok
    rfl
  | cons child rest ih =>
    unfold loadTags Repository.hash_for_tag at hok
    cases hc : OciDigest.create (fs.tag_link child) with
    | error e => rw [hc] at hok; cases hok
    | ok dg =>
      rw [hc] at hok
      cases hrest : loadTags fs rest with
      | error e => rw [hrest] at hok; cases hok
      | ok ts2 =>
        rw [hrest] at hok
        cases hok
        rw [create_ok_value _ _ hc, ih ts2 hrest]
        rfl

theorem revisionAppendTag_ok_keys (t : Tag) (d d2 : List (Str × Revision))
    (h : revisionAppendTag t d = .ok d2) : d2.map Prod.fst = d.map Prod.fst := by
  induction d generalizing d2 with
  | nil => cases h
  | cons p rest ih =>
    unfold revisionAppendTag at h
    by_cases hp : p.1 = t.digest
    · rw [if_pos hp] at h
      cases h
      rfl
    · rw [if_neg hp] at h
      cases hrest : revisionAppendTag t rest with
      | error e => rw [hrest] at h; cases h
      | ok rest2 =>
        rw [hrest] at h
        cases h
        simp [ih rest2 hrest]

theorem revisionAppendTag_ok_get (t : Tag) (d d2 : List (Str × Revision))
    (h : revisionAppendTag t d = .ok d2) (k : Str) :
    dictGet k d2 = if k = t.digest
      then (dictGet k d).map (fun rev => { rev with tags := rev.tags ++ [t] })
      else dictGet k d := by
  induction d generalizing d2 with
  | nil => cases h
  | cons p rest ih =>
    unfold revisionAppendTag at h
    by_cases hp : p.1 = t.digest
    · rw [if_pos hp] at h
      cases h
      simp only [dictGet]
      by_cases hk : p.1 = k
      · rw [if_pos hk, if_pos (hk.symm.trans hp), if_pos hk]
        rfl
      · rw [if_neg hk]
        by_cases hkt : k = t.digest
        · exact absurd (hp.trans hkt.symm) hk
        · rw [if_neg hkt, if_neg hk]
    · rw [if_neg hp] at h
      cases hrest : revisionAppendTag t rest with
      | error e => rw [hrest] at h; cases h
      | ok rest2 =>
        rw [hrest] at h
        cases h
        simp only [dictGet]
        by_cases hk : p.1 = k
        · rw [if_pos hk]
          by_cases hkt : k = t.digest
          · exact absurd (hk.trans hkt) hp
          · rw [if_neg hkt, if_pos hk]
        · rw [if_neg hk, if_neg hk, ih rest2 hrest]

theorem revisionAppendTag_ok_mem (t : Tag) (d d2 : List (Str × Revision))
    (h : revisionAppendTag t d = .ok d2) : (dictGet t.digest d).isSome = true := by
  induction d generalizing d2 with
  | nil => cases h
  | cons p rest ih =>
    unfold revisionAppendTag at h
    unfold dictGet
    by_cases hp : p.1 = t.digest
    · rw [if_pos hp]
      rfl
    · rw [if_neg hp] at h ⊢
      cases hrest : revisionAppendTag t rest with
      | error e => rw [hrest] at h; cases h
      | ok rest2 => exact ih rest2 hrest

theorem linkTags_ok_get (ts : List Tag) (revs revs2 : List (Str × Revision))
    (h : linkTags ts revs = .ok revs2) (k : Str) :
    dictGet k revs2 = (dictGet k revs).map
      (fun rev => { rev with tags := rev.tags ++ ts.filter (fun t => decide (t.digest = k)) }) := by
  induction ts generalizing revs with
  | nil =>
    cases h
    cases hg : dictGet k revs2 <;> simp [hg]
  | cons t rest ih =>
    unfold linkTags at h
    cases hstep : revisionAppendTag t revs with
    | error e => rw [hstep] at h; cases h
    | ok revs1 =>
      rw [hstep] at h
      rw [ih revs1 h, revisionAppendTag_ok_get t revs revs1 hstep k]
      by_cases hkt : k = t.digest
      · rw [if_pos hkt]
        cases hg : dictGet k revs with
        | none => rfl
        | some rev =>
          have hd : t.digest = k := hkt.symm
          simp [List.filter_cons, hd, List.append_assoc]
      · rw [if_neg hkt]
        have hne : ¬ (t.digest = k) := fun hh => hkt hh.symm
        have hf : List.filter (fun t2 => decide (t2.digest = k)) (t :: rest)
            = List.filter (fun t2 => decide (t2.digest = k)) rest := by
          simp [List.filter_cons, hne]
        rw [hf]

theorem linkTags_ok_mem (ts : List Tag) (revs revs2 : List (Str × Revision))
    (h : linkTags ts revs = .ok revs2) :
    ∀ t ∈ ts, (dictGet t.digest revs).isSome = true := by
  induction ts generalizing revs with
  | nil => intro t ht; cases ht
  | cons t0 rest ih =>
    intro t ht
    unfold linkTags at h
    cases hstep : revisionAppendTag t0 revs with
    | error e => rw [hstep] at h; cases h
    | ok revs1 =>
      rw [hstep] at h
      rcases List.mem_cons.mp ht with rfl | hmem
      · exact revisionAppendTag_ok_mem t revs revs1 hstep
      · have h1 := ih revs1 h t hmem
        rw [revisionAppendTag_ok_get t0 revs revs1 hstep t.digest] at h1
        by_cases hkt : t.digest = t0.digest
        · rw [if_pos hkt] at h1
          cases hgg : dictGet t.digest revs with
          | none => rw [hgg] at h1; simp at h1
          | some rev => rfl
        · rwa [if_neg hkt] at h1

theorem linkTags_ok_keys (ts : List Tag) (revs revs2 : List (Str × Revision))
    (h : linkTags ts revs = .ok revs2) : revs2.map Prod.fst = revs.map Prod.fst := by
  induction ts generalizing revs with
  | nil => cases h; rfl
  | cons t rest ih =>
    unfold linkTags at h
    cases hstep : revisionAppendTag t revs with
    | error e => rw [hstep] at h; cases h
    | ok revs1 =>
      rw [hstep] at h
      rw [ih revs1 h, revisionAppendTag_ok_keys t revs revs1 hstep]

theorem dictGet_sha_map (ds : List Str) (g : Str → Revision) (n : Str)
    (hnodup : ds.Nodup) (hn : n ∈ ds) :
    dictGet (("sha256:").data ++ n)
      (ds.map (fun m => ((("sha256:").data ++ m), g m))) = some (g n) := by
  induction ds with
  | nil => cases hn
  | cons m rest ih =>
    rw [List.map_cons]
    unfold dictGet
    by_cases hm : ("sha256:").data ++ m = ("sha256:").data ++ n
    · have hmn : m = n := List.append_cancel_left hm
      subst hmn
      rw [if_pos hm]
    · rw [if_neg hm]
      rcases List.mem_cons.mp hn with rfl | hmem
      · exact absurd rfl hm
      · exact ih (List.nodup_cons.mp hnodup).2 hmem

/-- C7: after a completed `Repository.load()` over distinct revision
directory names, the revision cache holds exactly one entry per subdirectory
of the revisions root, keyed by `sha256:` plus the directory name (and each
cached revision carries that digest); and every tag directory whose link file
digest matches a cached revision appears, as a `Tag`, in that revision's tag
list. -/
theorem repository_load_spec (fs : RepoFS) (now : Time) (r r2 : Repository)
    (hok : Repository.load fs now r = .ok r2)
    (hnodup : fs.revision_dirs.Nodup) :
    (r2.cached_revisions.map Prod.fst
        = fs.revision_dirs.map (fun n => ("sha256:").data ++ n))
      ∧ (∀ n ∈ fs.revision_dirs, ∃ rev,
           dictGet (("sha256:").data ++ n) r2.cached_revisions = some rev
             ∧ rev.digest = ("sha256:").data ++ n)
      ∧ (∀ t ∈ fs.tag_dirs, ∃ rev,
           dictGet (fs.tag_link t) r2.cached_revisions = some rev
             ∧ ({ name := t, digest := fs.tag_link t } : Tag) ∈ rev.tags) := by
  cases hrev : loadRevisions fs.revision_dirs [] with
  | error e => exact absurd hok (by simp [Repository.load, hrev])
  | ok revs =>
    cases htags : loadTags fs fs.tag_dirs with
    | error e => exact absurd hok (by simp [Repository.load, hrev, htags])
    | ok tags =>
      cases hlink : linkTags tags revs with
      | error e => exact absurd hok (by simp [Repository.load, hrev, htags, hlink])
      | ok revs2 =>
        simp only [Repository.load, hrev, htags, hlink] at hok
        cases hok
        have hcr : ({ r with cached_revisions := revs2, last_load := now }
            : Repository).cached_revisions = revs2 := rfl
        rw [hcr]
        have hrevs : revs = fs.revision_dirs.map (fun n =>
            ((("sha256:").data ++ n),
             ({ digest := ("sha256:").data ++ n, tags := [] } : Revision))) := by
          have := loadRevisions_ok fs.revision_dirs [] revs hrev
            (fun n _ => rfl) hnodup
          simpa using this
        have htl : tags = fs.tag_dirs.map
            (fun t => ({ name := t, digest := fs.tag_link t } : Tag)) :=
          loadTags_ok fs fs.tag_dirs tags htags
        refine ⟨?_, ?_, ?_⟩
        · rw [linkTags_ok_keys tags revs revs2 hlink, hrevs, List.map_map]
          rfl
        · intro n hn
          have hget0 : dictGet (("sha256:").data ++ n) revs
              = some ({ digest := ("sha256:").data ++ n, tags := [] } : Revision) := by
            rw [hrevs]
            exact dictGet_sha_map fs.revision_dirs _ n hnodup hn
          refine ⟨{ digest := ("sha256:").data ++ n,
                    tags := tags.filter
                      (fun t => decide (t.digest = ("sha256:").data ++ n)) }, ?_, rfl⟩
          rw [linkTags_ok_get tags revs revs2 hlink, hget0]
          rfl
        · intro t ht
          have htag : ({ name := t, digest := fs.tag_link t } : Tag) ∈ tags := by
            rw [htl]
            exact List.mem_map_of_mem _ ht
          have hsome := linkTags_ok_mem tags revs revs2 hlink _ htag
          cases hget0 : dictGet (fs.tag_link t) revs with
          | none => rw [hget0] at hsome; cases hsome
          | some rev0 =>
            refine ⟨{ rev0 with tags := rev0.tags
                        ++ tags.filter (fun t2 => decide (t2.digest = fs.tag_link t)) },
                    ?_, ?_⟩
            · rw [linkTags_ok_get tags revs revs2 hlink, hget0]
              rfl
            · simp only [List.mem_append]
              right
              rw [List.mem_filter]
              exact ⟨htag, by simp⟩

/-- C7 witness: over a subtree with revision directory `hexA` and tag
directory `v1` whose link file holds `sha256:<hexA>`, `load` completes and
the cached revision keyed by that digest carries the tag `v1`. -/
theorem repository_load_spec_witness :
    Repository.load cRepoFS 5 cRepo = .ok cLoadedRepo
      ∧ cRepoFS.revision_dirs.Nodup
      ∧ cLoadedRepo.cached_revisions.map Prod.fst = [digA]
      ∧ (∃ rev, dictGet digA cLoadedRepo.cached_revisions = some rev
            ∧ ({ name := ("v1").data, digest := digA } : Tag) ∈ rev.tags) := by
  have h := repository_load_spec cRepoFS 5 cRepo cLoadedRepo rfl (by decide)
  refine ⟨rfl, by decide, h.1, ?_⟩
  obtain ⟨rev, hget, hmem⟩ := h.2.2 (("v1").data) (by decide)
  exact ⟨rev, hget, hmem⟩

end DockerRegistry
